import Mathlib

/-
Verification of the logger-tree lifecycle and dispatch engine of the
`logging` package (src/logging/logger.go).

The embedding has three layers:

1. Value-level types shared by the whole development: Go `any` argument
   values, attributes, Go errors with `errors.Join` semantics, caller
   resolution results, levels, logger states, records, and an event trace
   recording which handler operation was invoked on which logger.

2. A heap model `World`: loggers are nodes indexed by `Nat` ids, with
   `parent`/`children` links exactly as in the Go struct.  The operations
   `NewLogger`, `NewChildLogger`, `RootLogger`, `Handlers`, `AddHandler`,
   `PanicOnError`, `SetPanicOnError`, `Log`, `Debug`, `Info`, `Warn`,
   `Error` are translated from logger.go.  The non-deterministic parts of
   the Go runtime (the caller resolver `getCaller` and `time.Now`) are
   passed in as explicit parameters: a `CallerResult` and a `Nat` clock.

3. A structural tree model `LTree` for `Logger.Close`, whose recursion is
   over the pointer tree; the root handler list (which `Close` reads via
   `logger.Handlers()` and never modifies) is passed down explicitly, and
   the per-node caller resolution is a function of the node id.

Handlers are modelled as records of result functions (the concrete handler
implementations are external collaborators); every invocation of a handler
operation is additionally recorded in an event trace so that claims about
"every handler is invoked, in registration order" are statable.
-/

/-- A Go `any` argument value, as far as attribute parsing can observe it:
either a `string` or a non-string payload. -/
inductive GoValue where
  | str (s : String)
  | int (n : Int)
  | other (tag : Nat)
deriving DecidableEq

/-- logger.go `Attribute`: key (string) + value. -/
structure Attribute where
  key : String
  value : GoValue
deriving DecidableEq

/-- A Go `error` value: either a base error (`errors.New`) or the result of
`errors.Join` applied to a non-empty list of non-nil errors. -/
inductive GoError where
  | errorString (s : String)
  | joinError (errs : List GoError)

mutual

def GoError.decEq : (a b : GoError) → Decidable (a = b)
  | GoError.errorString s, GoError.errorString t =>
      match String.decEq s t with
      | isTrue h => isTrue (by rw [h])
      | isFalse h => isFalse (by intro hc; injection hc; contradiction)
  | GoError.errorString _, GoError.joinError _ =>
      isFalse fun h => GoError.noConfusion h
  | GoError.joinError _, GoError.errorString _ =>
      isFalse fun h => GoError.noConfusion h
  | GoError.joinError es, GoError.joinError fs =>
      match GoError.decEqList es fs with
      | isTrue h => isTrue (by rw [h])
      | isFalse h => isFalse (by intro hc; injection hc; contradiction)

def GoError.decEqList : (as bs : List GoError) → Decidable (as = bs)
  | [], [] => isTrue rfl
  | [], _ :: _ => isFalse fun h => List.noConfusion h
  | _ :: _, [] => isFalse fun h => List.noConfusion h
  | a :: as, b :: bs =>
      match GoError.decEq a b, GoError.decEqList as bs with
      | isTrue h1, isTrue h2 => isTrue (by rw [h1, h2])
      | isFalse h1, _ => isFalse (by intro hc; injection hc; contradiction)
      | _, isFalse h2 => isFalse (by intro hc; injection hc; contradiction)

end

instance : DecidableEq GoError := GoError.decEq

/-- logger.go `ErrNoCaller = errors.New("no caller")`. -/
def ErrNoCaller : GoError := GoError.errorString "no caller"

/-- Go `errors.Join(errs...)`: drop the nil entries; if none remain the
result is nil, otherwise a join error wrapping the non-nil errors in
order. -/
def errorsJoin (errs : List (Option GoError)) : Option GoError :=
  match errs.filterMap id with
  | [] => none
  | es => some (GoError.joinError es)

/-- The list of base errors inside an aggregate: nil holds zero errors, a
join holds its list, any other error stands alone. -/
def errList : Option GoError → List GoError
  | none => []
  | some (GoError.joinError es) => es
  | some e => [e]

/-- A resolved caller frame (`runtime.Frame`), reduced to the fields the
records carry. -/
structure Frame where
  function : String
  file : String
  line : Nat
deriving DecidableEq

/-- The outcome of `getCaller()`: either a frame and nil error, or a nil
frame and a non-nil error (in the source the only error value produced is
`ErrNoCaller`, but callers compare against it, so we keep the general
shape). -/
inductive CallerResult where
  | frame (f : Frame)
  | errRes (e : GoError)
deriving DecidableEq

/-- The guard `if err != nil && err != ErrNoCaller` used at every call site
of `getCaller`: the fatal resolver error, if any. -/
def callerFatal : CallerResult → Option GoError
  | CallerResult.frame _ => none
  | CallerResult.errRes e => if e = ErrNoCaller then none else some e

/-- The frame component actually used after the guard: the resolved frame,
or absent when the resolver returned `ErrNoCaller`. -/
def callerFrame : CallerResult → Option Frame
  | CallerResult.frame f => some f
  | CallerResult.errRes _ => none

/-- logger.go `type Level int` with the iota constants. -/
abbrev Level := Int

def LevelDebug : Level := 0
def LevelInfo : Level := 1
def LevelWarn : Level := 2
def LevelError : Level := 3
def LevelFatal : Level := 4
def LevelPanic : Level := 5

/-- logger.go `type LoggerState int` with its two constants. -/
inductive LoggerState where
  | LoggerState_Open
  | LoggerState_Closed
deriving DecidableEq

/-- logger.go `Record`: time (a `Nat` clock value standing for the UTC
timestamp), level, message, optional caller, attributes. -/
structure Record where
  time : Nat
  level : Level
  message : String
  caller : Option Frame
  attributes : List Attribute
deriving DecidableEq

/-- One handler invocation, recorded in the trace of an operation:
`created`/`closedNotify`/`recordEv` say that handler `hid` received the
corresponding callback for logger `loggerId`; `closedMark` records the
`logger.state = LoggerState_Closed` assignment. -/
inductive Event where
  | created (hid : Nat) (loggerId : Nat) (now : Nat) (caller : Option Frame)
  | closedNotify (hid : Nat) (loggerId : Nat) (now : Nat) (caller : Option Frame)
  | closedMark (loggerId : Nat)
  | recordEv (hid : Nat) (loggerId : Nat) (r : Record)
deriving DecidableEq

/-- A registered `Handler`: an id (to identify it in traces) and the
results its fallible operations produce. `OnLoggerCreated` returns nothing,
so only its invocation (a trace event) is observable. -/
structure Handler where
  hid : Nat
  onLoggerClosed : Nat → Nat → Option Frame → Option GoError
  handleRecord : Nat → Record → Option GoError

/-- logger.go `nextAttrFromArgs`: the head/tail split makes the `args[0]`
access of the source total (the source only calls it on a non-empty
list). -/
def nextAttrFromArgs (first : GoValue) (rest : List GoValue) :
    Attribute × List GoValue :=
  match first, rest with
  | GoValue.str x, [] => (⟨"!BADKEY", GoValue.str x⟩, [])
  | GoValue.str x, v :: rest2 => (⟨x, v⟩, rest2)
  | x, rest => (⟨"!BADKEY", x⟩, rest)

/-- logger.go `argsToAttrs`: repeatedly take the next attribute until the
argument list is exhausted. -/
def argsToAttrs (args : List GoValue) : List Attribute :=
  match args with
  | [] => []
  | a :: rest =>
      (nextAttrFromArgs a rest).1 :: argsToAttrs (nextAttrFromArgs a rest).2
termination_by args.length
decreasing_by
  simp_wf
  cases a <;> cases rest <;> (simp [nextAttrFromArgs]; all_goals omega)

/-- The pairwise-consumption relation of spec §4.2, stated as the spec words
it: a string key takes the following argument as value; a trailing string
key is flagged `!BADKEY` keeping the raw value; a non-string argument is
emitted whole under `!BADKEY`, consuming only itself. Relates an argument
list to the attribute list produced by fully consuming it, in call order. -/
inductive AttrParse : List GoValue → List Attribute → Prop where
  | nil : AttrParse [] []
  | pair (k : String) (v : GoValue) (rest : List GoValue)
      (attrs : List Attribute) :
      AttrParse rest attrs →
      AttrParse (GoValue.str k :: v :: rest) (⟨k, v⟩ :: attrs)
  | lone (k : String) :
      AttrParse [GoValue.str k] [⟨"!BADKEY", GoValue.str k⟩]
  | nonstr (v : GoValue) (rest : List GoValue) (attrs : List Attribute) :
      (∀ s, v ≠ GoValue.str s) → AttrParse rest attrs →
      AttrParse (v :: rest) (⟨"!BADKEY", v⟩ :: attrs)

/-- logger.go `Logger` struct fields; the process-unique uuid is modelled
by the node's index in the heap. -/
structure Node where
  parent : Option Nat
  children : List Nat
  state : LoggerState
  panicOnError : Bool
  handlers : List Handler

/-- The zero node, also what `NewLogger` constructs: open, no parent, no
children, no handlers, `panicOnError` false. -/
def defaultNode : Node :=
  { parent := none, children := [], state := LoggerState.LoggerState_Open,
    panicOnError := false, handlers := [] }

/-- The heap of logger nodes; a `*Logger` pointer is an index into it. -/
structure World where
  nodes : List Node

def World.get (w : World) (id : Nat) : Node := w.nodes.getD id defaultNode

def World.modify (w : World) (id : Nat) (f : Node → Node) : World :=
  ⟨w.nodes.set id (f (w.get id))⟩

/-- logger.go `NewLogger`: allocate a fresh open node with no parent, no
children, no handlers; constructing a root dispatches no event. -/
def NewLogger (w : World) : World × Nat × List Event :=
  (⟨w.nodes ++ [defaultNode]⟩, w.nodes.length, [])

/-- The `for l.parent != nil` loop of logger.go `RootLogger`, with fuel:
since a parent is always allocated before its child, a parent id is smaller
than its child's id and fuel `id + 1` reaches the fixpoint. -/
def rootLoggerAux (w : World) : Nat → Nat → Nat
  | 0, id => id
  | fuel + 1, id =>
      match (w.get id).parent with
      | none => id
      | some p => rootLoggerAux w fuel p

/-- logger.go `Logger.RootLogger`: follow parent links until absent. -/
def Logger.RootLogger (w : World) (id : Nat) : Nat :=
  rootLoggerAux w (id + 1) id

/-- logger.go `Logger.Handlers`: the root's handler list. -/
def Logger.Handlers (w : World) (id : Nat) : List Handler :=
  (w.get (Logger.RootLogger w id)).handlers

/-- logger.go `Logger.AddHandler`: append to the root's handler list. -/
def Logger.AddHandler (w : World) (id : Nat) (h : Handler) : World :=
  w.modify (Logger.RootLogger w id)
    (fun n => { n with handlers := n.handlers ++ [h] })

/-- logger.go `Logger.PanicOnError`: read the root's flag. -/
def Logger.PanicOnError (w : World) (id : Nat) : Bool :=
  (w.get (Logger.RootLogger w id)).panicOnError

/-- logger.go `Logger.SetPanicOnError`: write the root's flag. -/
def Logger.SetPanicOnError (w : World) (id : Nat) (value : Bool) : World :=
  w.modify (Logger.RootLogger w id) (fun n => { n with panicOnError := value })

/-- The result of `NewChildLogger`: the updated heap, the fresh child's id,
the `OnLoggerCreated` notifications dispatched, and the error carried by
`panic(err)` when the caller resolver failed fatally. -/
structure ChildResult where
  world : World
  childId : Nat
  events : List Event
  panicked : Option GoError

/-- logger.go `Logger.NewChildLogger`: allocate via `NewLogger`, set the
child's parent to the receiver, append the child to the receiver's
children, resolve the caller (a fatal resolver error panics, after the tree
mutations), then invoke `OnLoggerCreated` on every handler of the tree's
root, resolved from the child. -/
def Logger.NewChildLogger (w : World) (id : Nat) (cr : CallerResult)
    (now : Nat) : ChildResult :=
  let alloc := NewLogger w
  let childId := alloc.2.1
  let w2 := alloc.1.modify childId (fun n => { n with parent := some id })
  let w3 := w2.modify id (fun n => { n with children := n.children ++ [childId] })
  match callerFatal cr with
  | some e => ⟨w3, childId, [], some e⟩
  | none =>
      ⟨w3, childId,
        (Logger.Handlers w3 childId).map
          (fun h => Event.created h.hid childId now (callerFrame cr)),
        none⟩

/-- The `Record` literal built inside logger.go `Logger.Log`. -/
def logRecord (cr : CallerResult) (now : Nat) (level : Level)
    (message : String) (args : List GoValue) : Record :=
  { time := now, level := level, message := message,
    caller := callerFrame cr, attributes := argsToAttrs args }

/-- logger.go `Logger.Log`: resolve the caller (a fatal resolver error is
returned as-is, `ErrNoCaller` leaves the caller absent), build the record,
invoke `HandleRecord` on every handler of the tree's root in registration
order, and join the collected errors. -/
def Logger.Log (w : World) (id : Nat) (cr : CallerResult) (now : Nat)
    (level : Level) (message : String) (args : List GoValue) :
    Option GoError × List Event :=
  match callerFatal cr with
  | some e => (some e, [])
  | none =>
      let record := logRecord cr now level message args
      let hs := Logger.Handlers w id
      (errorsJoin (hs.map fun h => h.handleRecord id record),
       hs.map fun h => Event.recordEv h.hid id record)

/-- The observable result of a leveled call: a returned error value, or the
unrecoverable fault `panic(err)` carrying the dispatch error. -/
inductive CallOutcome where
  | ret (err : Option GoError)
  | panicked (e : GoError)
deriving DecidableEq

/-- logger.go `Logger.Debug`: log at `LevelDebug`; on a non-nil result with
the tree's `panicOnError` set, panic with that error, else return it. -/
def Logger.Debug (w : World) (id : Nat) (cr : CallerResult) (now : Nat)
    (message : String) (args : List GoValue) : CallOutcome × List Event :=
  let r := Logger.Log w id cr now LevelDebug message args
  match r.1 with
  | some e =>
      if Logger.PanicOnError w id then (CallOutcome.panicked e, r.2)
      else (CallOutcome.ret (some e), r.2)
  | none => (CallOutcome.ret none, r.2)

/-- logger.go `Logger.Info`, same policy at `LevelInfo`. -/
def Logger.Info (w : World) (id : Nat) (cr : CallerResult) (now : Nat)
    (message : String) (args : List GoValue) : CallOutcome × List Event :=
  let r := Logger.Log w id cr now LevelInfo message args
  match r.1 with
  | some e =>
      if Logger.PanicOnError w id then (CallOutcome.panicked e, r.2)
      else (CallOutcome.ret (some e), r.2)
  | none => (CallOutcome.ret none, r.2)

/-- logger.go `Logger.Warn`, same policy at `LevelWarn`. -/
def Logger.Warn (w : World) (id : Nat) (cr : CallerResult) (now : Nat)
    (message : String) (args : List GoValue) : CallOutcome × List Event :=
  let r := Logger.Log w id cr now LevelWarn message args
  match r.1 with
  | some e =>
      if Logger.PanicOnError w id then (CallOutcome.panicked e, r.2)
      else (CallOutcome.ret (some e), r.2)
  | none => (CallOutcome.ret none, r.2)

/-- logger.go `Logger.Error`, same policy at `LevelError`. -/
def Logger.Error (w : World) (id : Nat) (cr : CallerResult) (now : Nat)
    (message : String) (args : List GoValue) : CallOutcome × List Event :=
  let r := Logger.Log w id cr now LevelError message args
  match r.1 with
  | some e =>
      if Logger.PanicOnError w id then (CallOutcome.panicked e, r.2)
      else (CallOutcome.ret (some e), r.2)
  | none => (CallOutcome.ret none, r.2)

/-- Overwrite one node's `state` field, leaving every other field and node
unchanged: the probe used to show `Log` never reads any state field. -/
def setState (w : World) (id : Nat) (s : LoggerState) : World :=
  w.modify id (fun n => { n with state := s })

/-- A logger subtree as a structure: the node's id, its state, and its
children in order.  `Logger.Close` recurses over exactly this pointer
structure; the tree-global data it reads (the root's handler list, never
modified during a close) is passed alongside. -/
inductive LTree where
  | node (id : Nat) (st : LoggerState) (children : List LTree)

mutual

/-- logger.go `Logger.Close` on the subtree of one node.  `hs` is the root
handler list the source reads through `logger.Handlers()`; `cr` gives each
node's `getCaller()` outcome.  Already-`Closed` nodes return nil at once
with no effects.  Otherwise every child is closed first, in order, the
non-nil child errors are collected, then the caller is resolved (a fatal
resolver error is returned alone, the node left in its state), every
handler is notified with `OnLoggerClosed`, the node is marked `Closed`, and
the joined error list is returned.  Returns the updated subtree, the error
returned by `Close`, and the trace of handler notifications and state
marks. -/
def closeTree (hs : List Handler) (cr : Nat → CallerResult) (now : Nat) :
    LTree → LTree × Option GoError × List Event
  | LTree.node id st children =>
      if st = LoggerState.LoggerState_Closed then
        (LTree.node id st children, none, [])
      else
        let cres := closeForest hs cr now children
        match callerFatal (cr id) with
        | some e => (LTree.node id st cres.1, some e, cres.2.2)
        | none =>
            (LTree.node id LoggerState.LoggerState_Closed cres.1,
             errorsJoin (cres.2.1 ++
               (hs.map fun h => h.onLoggerClosed id now (callerFrame (cr id)))),
             cres.2.2 ++
               (hs.map fun h =>
                 Event.closedNotify h.hid id now (callerFrame (cr id))) ++
               [Event.closedMark id])

/-- The `for _, child := range logger.children` loop of `Close`: close each
child in order, collecting the resulting errors, updated children and
events. -/
def closeForest (hs : List Handler) (cr : Nat → CallerResult) (now : Nat) :
    List LTree → List LTree × List (Option GoError) × List Event
  | [] => ([], [], [])
  | t :: ts =>
      let r := closeTree hs cr now t
      let rs := closeForest hs cr now ts
      (r.1 :: rs.1, r.2.1 :: rs.2.1, r.2.2 ++ rs.2.2)

end

mutual

/-- Node ids of a subtree, parent before children (document order). -/
def preorder : LTree → List Nat
  | LTree.node id _ children => id :: preorderForest children

def preorderForest : List LTree → List Nat
  | [] => []
  | t :: ts => preorder t ++ preorderForest ts

end

mutual

/-- Node ids of a subtree, children (in child-list order) before the
parent. -/
def postorder : LTree → List Nat
  | LTree.node id _ children => postorderForest children ++ [id]

def postorderForest : List LTree → List Nat
  | [] => []
  | t :: ts => postorder t ++ postorderForest ts

end

mutual

/-- Every node of the subtree is `Open`. -/
def allOpenTree : LTree → Bool
  | LTree.node _ LoggerState.LoggerState_Open children => allOpenForest children
  | LTree.node _ LoggerState.LoggerState_Closed _ => false

def allOpenForest : List LTree → Bool
  | [] => true
  | t :: ts => allOpenTree t && allOpenForest ts

end

mutual

/-- The states of a subtree in document order (parallel to `preorder`). -/
def statesList : LTree → List LoggerState
  | LTree.node _ st children => st :: statesForest children

def statesForest : List LTree → List LoggerState
  | [] => []
  | t :: ts => statesList t ++ statesForest ts

end

/-- The node ids whose `state = Closed` assignment appears in a trace, in
execution order. -/
def closedMarks (evs : List Event) : List Nat :=
  evs.filterMap fun ev =>
    match ev with
    | Event.closedMark i => some i
    | _ => none

/-- The logger id an event concerns. -/
def eventLoggerId : Event → Nat
  | Event.created _ i _ _ => i
  | Event.closedNotify _ i _ _ => i
  | Event.closedMark i => i
  | Event.recordEv _ i _ => i

-- Concrete fixtures used by the witness theorems.

def errBoom : GoError := GoError.errorString "boom"

def errBoom2 : GoError := GoError.errorString "boom2"

/-- A handler (id 0) whose fallible operations always fail with `errBoom`. -/
def hFail0 : Handler :=
  { hid := 0,
    onLoggerClosed := fun _ _ _ => some errBoom,
    handleRecord := fun _ _ => some errBoom }

/-- A handler (id 1) whose operations always succeed. -/
def hOk1 : Handler :=
  { hid := 1,
    onLoggerClosed := fun _ _ _ => none,
    handleRecord := fun _ _ => none }

/-- A handler (id 2) whose fallible operations always fail with `errBoom2`. -/
def hFail2 : Handler :=
  { hid := 2,
    onLoggerClosed := fun _ _ _ => some errBoom2,
    handleRecord := fun _ _ => some errBoom2 }

/-- The expected resolver outcome "no caller found". -/
def noCallerRes : CallerResult := CallerResult.errRes ErrNoCaller

def noCallerOf : Nat → CallerResult := fun _ => noCallerRes

/-- Test world: node 0 is a root with three handlers (failing, succeeding,
failing), node 1 a child of 0, node 2 a child of 1. -/
def wChain : World :=
  ⟨[{ parent := none, children := [1], state := LoggerState.LoggerState_Open,
      panicOnError := false, handlers := [hFail0, hOk1, hFail2] },
    { parent := some 0, children := [2], state := LoggerState.LoggerState_Open,
      panicOnError := false, handlers := [] },
    { parent := some 1, children := [], state := LoggerState.LoggerState_Open,
      panicOnError := false, handlers := [] }]⟩

/-- Test world: a lone root with a failing handler and `panicOnError`
set. -/
def wPanicky : World :=
  ⟨[{ parent := none, children := [], state := LoggerState.LoggerState_Open,
      panicOnError := true, handlers := [hFail0] }]⟩

/-- Test tree: open root 0 with open children 1 and 2, node 1 having an
open child 3. -/
def tSmall : LTree :=
  LTree.node 0 LoggerState.LoggerState_Open
    [LTree.node 1 LoggerState.LoggerState_Open
       [LTree.node 3 LoggerState.LoggerState_Open []],
     LTree.node 2 LoggerState.LoggerState_Open []]

/-- A resolver that fails fatally (not `ErrNoCaller`) at node 0 and finds
no caller elsewhere. -/
def crFail0 : Nat → CallerResult :=
  fun i => if i = 0 then CallerResult.errRes errBoom else noCallerRes

-- ### THEOREMS ### --

theorem argsToAttrs_nil : argsToAttrs [] = [] := by
  simp [argsToAttrs]

theorem argsToAttrs_pair (k : String) (v : GoValue) (rest : List GoValue) :
    argsToAttrs (GoValue.str k :: v :: rest) = ⟨k, v⟩ :: argsToAttrs rest := by
  rw [argsToAttrs]
  simp [nextAttrFromArgs]

theorem argsToAttrs_lone (k : String) :
    argsToAttrs [GoValue.str k] = [⟨"!BADKEY", GoValue.str k⟩] := by
  rw [argsToAttrs]
  simp [nextAttrFromArgs, argsToAttrs_nil]

theorem argsToAttrs_nonstr (v : GoValue) (rest : List GoValue)
    (h : ∀ s, v ≠ GoValue.str s) :
    argsToAttrs (v :: rest) = ⟨"!BADKEY", v⟩ :: argsToAttrs rest := by
  rw [argsToAttrs]
  cases v with
  | str s => exact absurd rfl (h s)
  | int n => simp [nextAttrFromArgs]
  | other t => simp [nextAttrFromArgs]

theorem attrParse_argsToAttrs :
    ∀ (n : Nat) (args : List GoValue), args.length ≤ n →
      AttrParse args (argsToAttrs args) := by
  intro n
  induction n with
  | zero =>
      intro args h
      have : args = [] := List.length_eq_zero.mp (Nat.le_zero.mp h)
      subst this
      rw [argsToAttrs_nil]
      exact AttrParse.nil
  | succ n ih =>
      intro args h
      match args with
      | [] =>
          rw [argsToAttrs_nil]; exact AttrParse.nil
      | GoValue.str k :: [] =>
          rw [argsToAttrs_lone]; exact AttrParse.lone k
      | GoValue.str k :: v :: rest =>
          rw [argsToAttrs_pair]
          refine AttrParse.pair k v rest _ (ih rest ?_)
          simp at h
          omega
      | GoValue.int m :: rest =>
          rw [argsToAttrs_nonstr _ _ (by intro s; simp)]
          refine AttrParse.nonstr _ rest _ (by intro s; simp) (ih rest ?_)
          simp at h
          omega
      | GoValue.other t :: rest =>
          rw [argsToAttrs_nonstr _ _ (by intro s; simp)]
          refine AttrParse.nonstr _ rest _ (by intro s; simp) (ih rest ?_)
          simp at h
          omega

theorem attrParse_unique {args : List GoValue} {attrs : List Attribute}
    (h : AttrParse args attrs) : attrs = argsToAttrs args := by
  induction h with
  | nil => rw [argsToAttrs_nil]
  | pair k v rest attrs _ ih => rw [argsToAttrs_pair, ih]
  | lone k => rw [argsToAttrs_lone]
  | nonstr v rest attrs hv _ ih => rw [argsToAttrs_nonstr v rest hv, ih]

/-- C4: attribute parsing consumes arguments pairwise — a string key takes
the next argument as its value; a trailing string becomes a `!BADKEY`
attribute keeping the string as value; a non-string argument becomes a
`!BADKEY` attribute consuming only itself — and the three concrete examples
of the spec evaluate as stated. -/
theorem c4_attr_pairwise :
    (∀ (k : String) (v : GoValue) (rest : List GoValue),
        argsToAttrs (GoValue.str k :: v :: rest) = ⟨k, v⟩ :: argsToAttrs rest) ∧
    (∀ k : String,
        argsToAttrs [GoValue.str k] = [⟨"!BADKEY", GoValue.str k⟩]) ∧
    (∀ (v : GoValue) (rest : List GoValue), (∀ s, v ≠ GoValue.str s) →
        argsToAttrs (v :: rest) = ⟨"!BADKEY", v⟩ :: argsToAttrs rest) ∧
    argsToAttrs
        [GoValue.str "key1", GoValue.int 1, GoValue.str "key2", GoValue.int 2] =
      [⟨"key1", GoValue.int 1⟩, ⟨"key2", GoValue.int 2⟩] ∧
    argsToAttrs [GoValue.str "lonekey"] =
      [⟨"!BADKEY", GoValue.str "lonekey"⟩] ∧
    argsToAttrs [GoValue.int 42, GoValue.str "key", GoValue.str "v"] =
      [⟨"!BADKEY", GoValue.int 42⟩, ⟨"key", GoValue.str "v"⟩] := by
  refine ⟨argsToAttrs_pair, argsToAttrs_lone, argsToAttrs_nonstr, ?_, ?_, ?_⟩
  · rw [argsToAttrs_pair, argsToAttrs_pair, argsToAttrs_nil]
  · rw [argsToAttrs_lone]
  · rw [argsToAttrs_nonstr _ _ (by intro s; simp), argsToAttrs_pair,
      argsToAttrs_nil]

/-- Witness for C4 at a concrete non-string head. -/
theorem c4_attr_pairwise_witness :
    (∀ s, GoValue.int 42 ≠ GoValue.str s) ∧
    argsToAttrs (GoValue.int 42 :: [GoValue.str "key", GoValue.str "v"]) =
      ⟨"!BADKEY", GoValue.int 42⟩ ::
        argsToAttrs [GoValue.str "key", GoValue.str "v"] :=
  ⟨by intro s; simp,
   c4_attr_pairwise.2.2.1 (GoValue.int 42) [GoValue.str "key", GoValue.str "v"]
     (by intro s; simp)⟩

/-- C9: attribute parsing terminates on every finite argument list (it is a
total Lean function), fully consumes the list producing one attribute per
consumed unit in call order (it satisfies the consumption relation
`AttrParse`), and is deterministic (any list of attributes related to the
argument list by the consumption relation is the one it computes). -/
theorem c9_parse_total_deterministic (args : List GoValue) :
    AttrParse args (argsToAttrs args) ∧
    ∀ attrs, AttrParse args attrs → attrs = argsToAttrs args :=
  ⟨attrParse_argsToAttrs args.length args (Nat.le_refl _),
   fun _ h => attrParse_unique h⟩

/-- Witness for C9 at a concrete argument list and derivation. -/
theorem c9_parse_total_deterministic_witness :
    AttrParse [GoValue.str "k", GoValue.int 1] [⟨"k", GoValue.int 1⟩] ∧
    [(⟨"k", GoValue.int 1⟩ : Attribute)] =
      argsToAttrs [GoValue.str "k", GoValue.int 1] := by
  have hp : AttrParse [GoValue.str "k", GoValue.int 1] [⟨"k", GoValue.int 1⟩] :=
    AttrParse.pair "k" (GoValue.int 1) [] [] AttrParse.nil
  exact ⟨hp, (c9_parse_total_deterministic [GoValue.str "k", GoValue.int 1]).2
    [⟨"k", GoValue.int 1⟩] hp⟩

theorem World.get_modify (w : World) (i : Nat) (f : Node → Node) (k : Nat) :
    (w.modify i f).get k =
      if k = i ∧ i < w.nodes.length then f (w.get i) else w.get k := by
  unfold World.modify World.get
  rcases Nat.lt_or_ge i w.nodes.length with hi | hi
  · rcases eq_or_ne k i with hk | hk
    · subst hk
      simp [List.getD_eq_getElem?_getD, List.getElem?_set, hi]
    · simp [List.getD_eq_getElem?_getD, List.getElem?_set, hk, Ne.symm hk, hi]
  · rw [List.set_eq_of_length_le hi]
    simp [Nat.not_lt.mpr hi]

theorem World.get_modify_field {α : Type} (w : World) (i : Nat)
    (f : Node → Node) (k : Nat) (g : Node → α) (hf : ∀ n, g (f n) = g n) :
    g ((w.modify i f).get k) = g (w.get k) := by
  rw [World.get_modify]
  split
  · next h => rw [hf, h.1]
  · rfl

theorem rootLoggerAux_congr (w w' : World)
    (hp : ∀ k, (w'.get k).parent = (w.get k).parent) :
    ∀ fuel id, rootLoggerAux w' fuel id = rootLoggerAux w fuel id := by
  intro fuel
  induction fuel with
  | zero => intro id; rfl
  | succ n ih =>
      intro id
      simp only [rootLoggerAux, hp id]
      cases (w.get id).parent with
      | none => rfl
      | some p => exact ih p

theorem RootLogger_modify (w : World) (i : Nat) (f : Node → Node)
    (hf : ∀ n, (f n).parent = n.parent) (k : Nat) :
    Logger.RootLogger (w.modify i f) k = Logger.RootLogger w k := by
  unfold Logger.RootLogger
  exact rootLoggerAux_congr w (w.modify i f)
    (fun k2 => World.get_modify_field w i f k2 Node.parent hf) (k + 1) k

theorem Handlers_setState (w : World) (j : Nat) (s : LoggerState) (k : Nat) :
    Logger.Handlers (setState w j s) k = Logger.Handlers w k := by
  unfold Logger.Handlers setState
  rw [RootLogger_modify w j (fun n => { n with state := s }) (fun n => rfl) k]
  exact World.get_modify_field w j (fun n => { n with state := s }) _
    Node.handlers (fun n => rfl)

theorem PanicOnError_setState (w : World) (j : Nat) (s : LoggerState)
    (k : Nat) :
    Logger.PanicOnError (setState w j s) k = Logger.PanicOnError w k := by
  unfold Logger.PanicOnError setState
  rw [RootLogger_modify w j (fun n => { n with state := s }) (fun n => rfl) k]
  exact World.get_modify_field w j (fun n => { n with state := s }) _
    Node.panicOnError (fun n => rfl)

theorem Log_setState (w : World) (j : Nat) (s : LoggerState) (id : Nat)
    (cr : CallerResult) (now : Nat) (level : Level) (message : String)
    (args : List GoValue) :
    Logger.Log (setState w j s) id cr now level message args =
      Logger.Log w id cr now level message args := by
  unfold Logger.Log
  rw [Handlers_setState]

/-- C10: `Log` never inspects the open/closed state: overwriting any node's
state field (in particular, marking any logger `Closed`) changes neither
the aggregate error nor the handler invocations of `Log` at any level, nor
those of `Debug`, `Info`, `Warn` or `Error`; the state field is consulted
only by `Close`. -/
theorem c10_log_ignores_state (w : World) (j : Nat) (s : LoggerState)
    (id : Nat) (cr : CallerResult) (now : Nat) (level : Level)
    (message : String) (args : List GoValue) :
    Logger.Log (setState w j s) id cr now level message args =
      Logger.Log w id cr now level message args ∧
    Logger.Debug (setState w j s) id cr now message args =
      Logger.Debug w id cr now message args ∧
    Logger.Info (setState w j s) id cr now message args =
      Logger.Info w id cr now message args ∧
    Logger.Warn (setState w j s) id cr now message args =
      Logger.Warn w id cr now message args ∧
    Logger.Error (setState w j s) id cr now message args =
      Logger.Error w id cr now message args := by
  refine ⟨Log_setState w j s id cr now level message args, ?_, ?_, ?_, ?_⟩
  · unfold Logger.Debug
    rw [Log_setState, PanicOnError_setState]
  · unfold Logger.Info
    rw [Log_setState, PanicOnError_setState]
  · unfold Logger.Warn
    rw [Log_setState, PanicOnError_setState]
  · unfold Logger.Error
    rw [Log_setState, PanicOnError_setState]

/-- C5: when the tree's `panicOnError` flag (read from the root) is unset,
each of `Debug`, `Info`, `Warn` and `Error` returns the dispatch aggregate
of `Log` at its level (possibly nil) together with its handler invocations;
when the flag is set and dispatch produced a non-nil aggregate, the call
panics with that error instead of returning it. -/
theorem c5_leveled_policy (w : World) (id : Nat) (cr : CallerResult)
    (now : Nat) (message : String) (args : List GoValue) :
    (Logger.PanicOnError w id = false →
      Logger.Debug w id cr now message args =
        (CallOutcome.ret (Logger.Log w id cr now LevelDebug message args).1,
          (Logger.Log w id cr now LevelDebug message args).2) ∧
      Logger.Info w id cr now message args =
        (CallOutcome.ret (Logger.Log w id cr now LevelInfo message args).1,
          (Logger.Log w id cr now LevelInfo message args).2) ∧
      Logger.Warn w id cr now message args =
        (CallOutcome.ret (Logger.Log w id cr now LevelWarn message args).1,
          (Logger.Log w id cr now LevelWarn message args).2) ∧
      Logger.Error w id cr now message args =
        (CallOutcome.ret (Logger.Log w id cr now LevelError message args).1,
          (Logger.Log w id cr now LevelError message args).2)) ∧
    (Logger.PanicOnError w id = true →
      (∀ e, (Logger.Log w id cr now LevelDebug message args).1 = some e →
        Logger.Debug w id cr now message args =
          (CallOutcome.panicked e,
            (Logger.Log w id cr now LevelDebug message args).2)) ∧
      (∀ e, (Logger.Log w id cr now LevelInfo message args).1 = some e →
        Logger.Info w id cr now message args =
          (CallOutcome.panicked e,
            (Logger.Log w id cr now LevelInfo message args).2)) ∧
      (∀ e, (Logger.Log w id cr now LevelWarn message args).1 = some e →
        Logger.Warn w id cr now message args =
          (CallOutcome.panicked e,
            (Logger.Log w id cr now LevelWarn message args).2)) ∧
      (∀ e, (Logger.Log w id cr now LevelError message args).1 = some e →
        Logger.Error w id cr now message args =
          (CallOutcome.panicked e,
            (Logger.Log w id cr now LevelError message args).2))) := by
  constructor
  · intro hp
    refine ⟨?_, ?_, ?_, ?_⟩
    · unfold Logger.Debug
      cases h : (Logger.Log w id cr now LevelDebug message args).1 with
      | none => simp [h]
      | some e => simp [h, hp]
    · unfold Logger.Info
      cases h : (Logger.Log w id cr now LevelInfo message args).1 with
      | none => simp [h]
      | some e => simp [h, hp]
    · unfold Logger.Warn
      cases h : (Logger.Log w id cr now LevelWarn message args).1 with
      | none => simp [h]
      | some e => simp [h, hp]
    · unfold Logger.Error
      cases h : (Logger.Log w id cr now LevelError message args).1 with
      | none => simp [h]
      | some e => simp [h, hp]
  · intro hp
    refine ⟨?_, ?_, ?_, ?_⟩
    · intro e he
      unfold Logger.Debug
      simp [he, hp]
    · intro e he
      unfold Logger.Info
      simp [he, hp]
    · intro e he
      unfold Logger.Warn
      simp [he, hp]
    · intro e he
      unfold Logger.Error
      simp [he, hp]

/-- Witness for C5 on concrete worlds: `wChain` has the flag unset and a
failing handler; `wPanicky` has the flag set and its lone handler fails. -/
theorem c5_leveled_policy_witness :
    Logger.PanicOnError wChain 1 = false ∧
    Logger.Debug wChain 1 noCallerRes 5 "m" [] =
      (CallOutcome.ret (Logger.Log wChain 1 noCallerRes 5 LevelDebug "m" []).1,
        (Logger.Log wChain 1 noCallerRes 5 LevelDebug "m" []).2) ∧
    Logger.PanicOnError wPanicky 0 = true ∧
    (Logger.Log wPanicky 0 noCallerRes 5 LevelError "m" []).1 =
      some (GoError.joinError [errBoom]) ∧
    Logger.Error wPanicky 0 noCallerRes 5 "m" [] =
      (CallOutcome.panicked (GoError.joinError [errBoom]),
        (Logger.Log wPanicky 0 noCallerRes 5 LevelError "m" []).2) := by
  have h1 : Logger.PanicOnError wChain 1 = false := by rfl
  have h2 : Logger.PanicOnError wPanicky 0 = true := by rfl
  have h3 : (Logger.Log wPanicky 0 noCallerRes 5 LevelError "m" []).1 =
      some (GoError.joinError [errBoom]) := by rfl
  exact ⟨h1, ((c5_leveled_policy wChain 1 noCallerRes 5 "m" []).1 h1).1,
    h2, h3, ((c5_leveled_policy wPanicky 0 noCallerRes 5 "m" []).2 h2).2.2.2 _ h3⟩

theorem errList_errorsJoin (l : List (Option GoError)) :
    errList (errorsJoin l) = l.filterMap id := by
  unfold errorsJoin
  cases h : l.filterMap id with
  | nil => rfl
  | cons e es => rfl

theorem errorsJoin_eq_none_iff (l : List (Option GoError)) :
    errorsJoin l = none ↔ l.filterMap id = [] := by
  unfold errorsJoin
  cases h : l.filterMap id with
  | nil => simp
  | cons e es => simp

theorem Log_of_caller_ok (w : World) (id : Nat) (cr : CallerResult)
    (now : Nat) (level : Level) (message : String) (args : List GoValue)
    (hcr : callerFatal cr = none) :
    Logger.Log w id cr now level message args =
      (errorsJoin ((Logger.Handlers w id).map fun h =>
          h.handleRecord id (logRecord cr now level message args)),
        (Logger.Handlers w id).map fun h =>
          Event.recordEv h.hid id (logRecord cr now level message args)) := by
  unfold Logger.Log
  rw [hcr]

theorem closeTree_open_leaf (hs : List Handler) (crt : Nat → CallerResult)
    (now : Nat) (tid : Nat) (hcrt : callerFatal (crt tid) = none) :
    closeTree hs crt now (LTree.node tid LoggerState.LoggerState_Open []) =
      (LTree.node tid LoggerState.LoggerState_Closed [],
       errorsJoin (hs.map fun h =>
         h.onLoggerClosed tid now (callerFrame (crt tid))),
       (hs.map fun h =>
         Event.closedNotify h.hid tid now (callerFrame (crt tid))) ++
         [Event.closedMark tid]) := by
  rw [closeTree]
  simp [closeForest, hcrt]

/-- C1: dispatch iterates the root's handler list in registration order.
For a record event, `Log` invokes `HandleRecord` on all `N` registered
handlers (one trace event per handler, in list order) even when earlier
ones fail, and returns an aggregate holding exactly the non-nil handler
errors in registration order — nil when no handler failed.  The close
event of an open leaf likewise invokes `OnLoggerClosed` on every handler in
registration order and returns the aggregate of exactly the failing
handlers' errors, nil when none failed. -/
theorem c1_dispatch_aggregate (w : World) (lid : Nat) (cr : CallerResult)
    (now : Nat) (level : Level) (message : String) (args : List GoValue)
    (hs : List Handler) (crt : Nat → CallerResult) (tid : Nat)
    (hcr : callerFatal cr = none) (hcrt : callerFatal (crt tid) = none) :
    ((Logger.Log w lid cr now level message args).2 =
      (Logger.Handlers w lid).map (fun h =>
        Event.recordEv h.hid lid (logRecord cr now level message args)) ∧
     errList (Logger.Log w lid cr now level message args).1 =
      ((Logger.Handlers w lid).map (fun h =>
        h.handleRecord lid (logRecord cr now level message args))).filterMap
        (fun x => x) ∧
     ((Logger.Log w lid cr now level message args).1 = none ↔
      ∀ h ∈ Logger.Handlers w lid,
        h.handleRecord lid (logRecord cr now level message args) = none)) ∧
    ((closeTree hs crt now
        (LTree.node tid LoggerState.LoggerState_Open [])).2.2 =
      (hs.map fun h =>
        Event.closedNotify h.hid tid now (callerFrame (crt tid))) ++
        [Event.closedMark tid] ∧
     errList (closeTree hs crt now
        (LTree.node tid LoggerState.LoggerState_Open [])).2.1 =
      (hs.map fun h =>
        h.onLoggerClosed tid now (callerFrame (crt tid))).filterMap
        (fun x => x) ∧
     ((closeTree hs crt now
        (LTree.node tid LoggerState.LoggerState_Open [])).2.1 = none ↔
      ∀ h ∈ hs, h.onLoggerClosed tid now (callerFrame (crt tid)) = none)) := by
  rw [Log_of_caller_ok w lid cr now level message args hcr,
    closeTree_open_leaf hs crt now tid hcrt]
  refine ⟨⟨rfl, errList_errorsJoin _, ?_⟩, ⟨rfl, errList_errorsJoin _, ?_⟩⟩
  · rw [errorsJoin_eq_none_iff]
    simp [List.filterMap_eq_nil_iff]
  · rw [errorsJoin_eq_none_iff]
    simp [List.filterMap_eq_nil_iff]

/-- Witness for C1: in `wChain`, logging from node 2 reaches the root's
three handlers, of which the first and third fail, and the aggregate holds
exactly their two errors in registration order; the close dispatch behaves
alike. -/
theorem c1_dispatch_aggregate_witness :
    callerFatal noCallerRes = none ∧
    errList (Logger.Log wChain 2 noCallerRes 3 LevelInfo "m" []).1 =
      ((Logger.Handlers wChain 2).map (fun h =>
        h.handleRecord 2 (logRecord noCallerRes 3 LevelInfo "m" []))).filterMap
        (fun x => x) ∧
    (Logger.Log wChain 2 noCallerRes 3 LevelInfo "m" []).1 =
      some (GoError.joinError [errBoom, errBoom2]) ∧
    (closeTree [hFail0, hOk1, hFail2] noCallerOf 3
        (LTree.node 7 LoggerState.LoggerState_Open [])).2.1 =
      some (GoError.joinError [errBoom, errBoom2]) := by
  refine ⟨rfl, ?_, rfl, rfl⟩
  exact (c1_dispatch_aggregate wChain 2 noCallerRes 3 LevelInfo "m" []
    [hFail0, hOk1, hFail2] noCallerOf 7 rfl rfl).1.2.1

theorem ltree_ind (P : LTree → Prop)
    (step : ∀ id st children,
      (∀ c ∈ children, P c) → P (LTree.node id st children)) :
    ∀ t, P t := by
  have aux : ∀ (n : Nat) (t : LTree), sizeOf t ≤ n → P t := by
    intro n
    induction n with
    | zero =>
        intro t h
        cases t with
        | node id st children => simp at h
    | succ n ihn =>
        intro t h
        cases t with
        | node id st children =>
            refine step id st children ?_
            intro c hc
            refine ihn c ?_
            have h1 := List.sizeOf_lt_of_mem hc
            have h2 : sizeOf (LTree.node id st children) =
                1 + sizeOf id + sizeOf st + sizeOf children := by simp
            omega
  exact fun t => aux (sizeOf t) t (Nat.le_refl _)

theorem allOpenForest_mem {ts : List LTree} (h : allOpenForest ts = true) :
    ∀ c ∈ ts, allOpenTree c = true := by
  induction ts with
  | nil => intro c hc; cases hc
  | cons t ts' ih =>
      rw [allOpenForest, Bool.and_eq_true] at h
      intro c hc
      rcases List.mem_cons.mp hc with hc | hc
      · rw [hc]; exact h.1
      · exact ih h.2 c hc

theorem closedMarks_append (a b : List Event) :
    closedMarks (a ++ b) = closedMarks a ++ closedMarks b := by
  unfold closedMarks
  exact List.filterMap_append a b _

theorem closedMarks_notify (hs : List Handler) (i now : Nat)
    (c : Option Frame) :
    closedMarks (hs.map fun h => Event.closedNotify h.hid i now c) = [] := by
  unfold closedMarks
  rw [List.filterMap_eq_nil_iff]
  intro a ha
  rcases List.mem_map.mp ha with ⟨h, _, hh⟩
  rw [← hh]

theorem closeForest_marks (hs : List Handler) (cr : Nat → CallerResult)
    (now : Nat) (ts : List LTree)
    (h : ∀ c ∈ ts, closedMarks (closeTree hs cr now c).2.2 = postorder c) :
    closedMarks (closeForest hs cr now ts).2.2 = postorderForest ts := by
  induction ts with
  | nil => rfl
  | cons t ts' ih =>
      rw [closeForest, postorderForest]
      simp only
      rw [closedMarks_append, h t (List.mem_cons_self t ts'),
        ih fun c hc => h c (List.mem_cons_of_mem t hc)]

theorem closeTree_marks (hs : List Handler) (cr : Nat → CallerResult)
    (now : Nat) (hcr : ∀ i, callerFatal (cr i) = none) :
    ∀ t, allOpenTree t = true →
      closedMarks (closeTree hs cr now t).2.2 = postorder t := by
  refine ltree_ind _ ?_
  intro id st children ih hopen
  cases st with
  | LoggerState_Closed => exact absurd hopen (by rw [allOpenTree]; simp)
  | LoggerState_Open =>
      rw [allOpenTree] at hopen
      rw [closeTree]
      simp only [hcr id]
      rw [if_neg (fun hc => LoggerState.noConfusion hc)]
      rw [closedMarks_append, closedMarks_append, closedMarks_notify,
        closeForest_marks hs cr now children
          (fun c hc => ih c hc (allOpenForest_mem hopen c hc)),
        postorder]
      simp [closedMarks]

theorem postorderForest_perm (ts : List LTree)
    (h : ∀ c ∈ ts, (postorder c).Perm (preorder c)) :
    (postorderForest ts).Perm (preorderForest ts) := by
  induction ts with
  | nil => exact List.Perm.refl _
  | cons t ts' ih =>
      rw [postorderForest, preorderForest]
      exact List.Perm.append (h t (List.mem_cons_self t ts'))
        (ih fun c hc => h c (List.mem_cons_of_mem t hc))

theorem postorder_perm_preorder : ∀ t, (postorder t).Perm (preorder t) := by
  refine ltree_ind _ ?_
  intro id st children ih
  rw [postorder, preorder]
  exact (List.perm_append_singleton id _).trans
    ((postorderForest_perm children ih).cons id)

/-- C2 counterexample: closing the all-open tree `tSmall` (root 0 with
children 1 and 2, node 1 having child 3) marks nodes `Closed` in the order
[3, 1, 2, 0] — each node only after its children — while the pre-order of
the tree is [0, 1, 3, 2]; descendants are therefore not closed in
pre-order. -/
theorem c2_close_preorder_counterexample :
    closedMarks (closeTree [] noCallerOf 0 tSmall).2.2 = [3, 1, 2, 0] ∧
    preorder tSmall = [0, 1, 3, 2] ∧
    closedMarks (closeTree [] noCallerOf 0 tSmall).2.2 ≠ preorder tSmall :=
  ⟨by decide, by decide, by decide⟩

/-- C2 (amended): for every all-open tree whose caller resolutions are
non-fatal, `Close` closes every descendant exactly once — the sequence of
`Closed` marks is a permutation of the tree's node list — in post-order:
each node is closed after its children, children in child-list order, even
when handler calls fail (the handler list, failing handlers included, is
arbitrary), and a child's closure failure does not prevent closing the
remaining children or the current node. -/
theorem c2_close_postorder (hs : List Handler) (cr : Nat → CallerResult)
    (now : Nat) (t : LTree) (hcr : ∀ i, callerFatal (cr i) = none)
    (hopen : allOpenTree t = true) :
    closedMarks (closeTree hs cr now t).2.2 = postorder t ∧
    (closedMarks (closeTree hs cr now t).2.2).Perm (preorder t) := by
  have h := closeTree_marks hs cr now hcr t hopen
  exact ⟨h, h ▸ postorder_perm_preorder t⟩

/-- Witness for C2 (amended) on `tSmall` with a failing handler. -/
theorem c2_close_postorder_witness :
    (∀ i, callerFatal (noCallerOf i) = none) ∧
    allOpenTree tSmall = true ∧
    closedMarks (closeTree [hFail0] noCallerOf 0 tSmall).2.2 =
      postorder tSmall := by
  refine ⟨fun i => rfl, by decide, ?_⟩
  exact (c2_close_postorder [hFail0] noCallerOf 0 tSmall (fun i => rfl)
    (by decide)).1

theorem closeTree_closed (hs : List Handler) (cr : Nat → CallerResult)
    (now : Nat) (id : Nat) (children : List LTree) :
    closeTree hs cr now
        (LTree.node id LoggerState.LoggerState_Closed children) =
      (LTree.node id LoggerState.LoggerState_Closed children, none, []) := by
  rw [closeTree]
  simp

theorem closeForest_states (hs : List Handler) (cr : Nat → CallerResult)
    (now : Nat) (ts : List LTree)
    (h : ∀ c ∈ ts, preorder (closeTree hs cr now c).1 = preorder c ∧
      List.Forall₂ (fun s s2 => s = LoggerState.LoggerState_Closed →
          s2 = LoggerState.LoggerState_Closed)
        (statesList c) (statesList (closeTree hs cr now c).1)) :
    preorderForest (closeForest hs cr now ts).1 = preorderForest ts ∧
    List.Forall₂ (fun s s2 => s = LoggerState.LoggerState_Closed →
        s2 = LoggerState.LoggerState_Closed)
      (statesForest ts) (statesForest (closeForest hs cr now ts).1) := by
  induction ts with
  | nil =>
      refine ⟨rfl, ?_⟩
      exact List.Forall₂.nil
  | cons t ts2 ih =>
      have ht := h t (List.mem_cons_self t ts2)
      have hts := ih fun c hc => h c (List.mem_cons_of_mem t hc)
      rw [closeForest]
      simp only
      constructor
      · rw [preorderForest, preorderForest, ht.1, hts.1]
      · rw [statesForest, statesForest]
        exact List.rel_append ht.2 hts.2

theorem closeTree_states (hs : List Handler) (cr : Nat → CallerResult)
    (now : Nat) :
    ∀ t, preorder (closeTree hs cr now t).1 = preorder t ∧
      List.Forall₂ (fun s s2 => s = LoggerState.LoggerState_Closed →
          s2 = LoggerState.LoggerState_Closed)
        (statesList t) (statesList (closeTree hs cr now t).1) := by
  refine ltree_ind _ ?_
  intro id st children ih
  cases st with
  | LoggerState_Closed =>
      rw [closeTree_closed]
      exact ⟨rfl, List.forall₂_same.mpr fun a _ => fun hc => hc⟩
  | LoggerState_Open =>
      have hforest := closeForest_states hs cr now children ih
      rw [closeTree]
      rw [if_neg (fun hc => LoggerState.noConfusion hc)]
      cases hcf : callerFatal (cr id) with
      | some e =>
          simp only [hcf]
          constructor
          · rw [preorder, preorder]
            simp only [List.cons.injEq, true_and]
            exact hforest.1
          · rw [statesList, statesList]
            exact List.Forall₂.cons (fun hc => hc) hforest.2
      | none =>
          simp only [hcf]
          constructor
          · rw [preorder, preorder]
            simp only [List.cons.injEq, true_and]
            exact hforest.1
          · rw [statesList, statesList]
            exact List.Forall₂.cons (fun _ => rfl) hforest.2

theorem World.get_append_lt (w : World) (d : Node) (k : Nat)
    (hk : k < w.nodes.length) :
    (World.mk (w.nodes ++ [d])).get k = w.get k := by
  unfold World.get
  simp [List.getD_eq_getElem?_getD, List.getElem?_append_left hk]

theorem NewChildLogger_world (w : World) (i : Nat) (cr : CallerResult)
    (now : Nat) :
    (Logger.NewChildLogger w i cr now).world =
      ((World.mk (w.nodes ++ [defaultNode])).modify w.nodes.length
        (fun n => { n with parent := some i })).modify i
        (fun n => { n with children := n.children ++ [w.nodes.length] }) := by
  unfold Logger.NewChildLogger NewLogger
  cases hcf : callerFatal cr
  · rfl
  · rfl

theorem NewChildLogger_state (w : World) (i : Nat) (cr : CallerResult)
    (now : Nat) (k : Nat) (hk : k < w.nodes.length) :
    (((Logger.NewChildLogger w i cr now).world).get k).state =
      (w.get k).state := by
  rw [NewChildLogger_world]
  rw [World.get_modify_field _ i
    (fun n => { n with children := n.children ++ [w.nodes.length] }) k
    Node.state (fun n => rfl)]
  rw [World.get_modify_field _ w.nodes.length
    (fun n => { n with parent := some i }) k Node.state (fun n => rfl)]
  rw [World.get_append_lt w defaultNode k hk]

/-- C3: the per-node state machine is monotonic Open → Closed.  Closing an
already-`Closed` node immediately returns nil with no side effects: the
subtree is unchanged, no handler is notified and no child is re-closed
(empty trace).  Closing any tree preserves its node ids and only ever
moves states towards `Closed` (a `Closed` node never becomes `Open`), and
none of `AddHandler`, `SetPanicOnError` or `NewChildLogger` changes any
existing node's state. -/
theorem c3_state_machine :
    (∀ (hs : List Handler) (cr : Nat → CallerResult) (now : Nat) (id : Nat)
        (children : List LTree),
      closeTree hs cr now
          (LTree.node id LoggerState.LoggerState_Closed children) =
        (LTree.node id LoggerState.LoggerState_Closed children, none, [])) ∧
    (∀ (hs : List Handler) (cr : Nat → CallerResult) (now : Nat) (t : LTree),
      preorder (closeTree hs cr now t).1 = preorder t ∧
      List.Forall₂ (fun s s2 => s = LoggerState.LoggerState_Closed →
          s2 = LoggerState.LoggerState_Closed)
        (statesList t) (statesList (closeTree hs cr now t).1)) ∧
    (∀ (w : World) (i : Nat) (h : Handler) (k : Nat),
      ((Logger.AddHandler w i h).get k).state = (w.get k).state) ∧
    (∀ (w : World) (i : Nat) (b : Bool) (k : Nat),
      ((Logger.SetPanicOnError w i b).get k).state = (w.get k).state) ∧
    (∀ (w : World) (i : Nat) (cr : CallerResult) (now : Nat) (k : Nat),
      k < w.nodes.length →
      (((Logger.NewChildLogger w i cr now).world).get k).state =
        (w.get k).state) := by
  refine ⟨closeTree_closed, fun hs cr now t => closeTree_states hs cr now t,
    ?_, ?_, fun w i cr now k hk => NewChildLogger_state w i cr now k hk⟩
  · intro w i h k
    unfold Logger.AddHandler
    exact World.get_modify_field w _ (fun n => { n with handlers := n.handlers ++ [h] })
      k Node.state (fun n => rfl)
  · intro w i b k
    unfold Logger.SetPanicOnError
    exact World.get_modify_field w _ (fun n => { n with panicOnError := b })
      k Node.state (fun n => rfl)

/-- Witness for C3 at a concrete child creation in `wChain`. -/
theorem c3_state_machine_witness :
    1 < wChain.nodes.length ∧
    (((Logger.NewChildLogger wChain 0 noCallerRes 0).world).get 1).state =
      (wChain.get 1).state :=
  ⟨by decide,
   c3_state_machine.2.2.2.2 wChain 0 noCallerRes 0 1 (by decide)⟩

theorem mem_preorderForest {x : Nat} {ts : List LTree} :
    x ∈ preorderForest ts ↔ ∃ c ∈ ts, x ∈ preorder c := by
  induction ts with
  | nil => simp [preorderForest]
  | cons t ts2 ih => simp [preorderForest, ih]

theorem closeForest_events_ids (hs : List Handler) (cr : Nat → CallerResult)
    (now : Nat) (ts : List LTree)
    (h : ∀ c ∈ ts, ∀ ev ∈ (closeTree hs cr now c).2.2,
      eventLoggerId ev ∈ preorder c) :
    ∀ ev ∈ (closeForest hs cr now ts).2.2,
      eventLoggerId ev ∈ preorderForest ts := by
  induction ts with
  | nil => intro ev hev; cases hev
  | cons t ts2 ih =>
      intro ev hev
      rw [closeForest] at hev
      simp only at hev
      rw [preorderForest, List.mem_append]
      rcases List.mem_append.mp hev with hev | hev
      · exact Or.inl (h t (List.mem_cons_self t ts2) ev hev)
      · exact Or.inr (ih (fun c hc => h c (List.mem_cons_of_mem t hc)) ev hev)

theorem closeTree_events_ids (hs : List Handler) (cr : Nat → CallerResult)
    (now : Nat) :
    ∀ t, ∀ ev ∈ (closeTree hs cr now t).2.2, eventLoggerId ev ∈ preorder t := by
  refine ltree_ind _ ?_
  intro id st children ih ev hev
  cases st with
  | LoggerState_Closed =>
      rw [closeTree_closed] at hev
      cases hev
  | LoggerState_Open =>
      rw [closeTree, if_neg (fun hc => LoggerState.noConfusion hc)] at hev
      have hforest := closeForest_events_ids hs cr now children ih
      rw [preorder, List.mem_cons]
      cases hcf : callerFatal (cr id) with
      | some e =>
          rw [hcf] at hev
          simp only at hev
          exact Or.inr (hforest ev hev)
      | none =>
          rw [hcf] at hev
          simp only at hev
          rcases List.mem_append.mp hev with hev | hev
          · rcases List.mem_append.mp hev with hev | hev
            · exact Or.inr (hforest ev hev)
            · rcases List.mem_map.mp hev with ⟨hh, _, hhe⟩
              rw [← hhe]
              exact Or.inl rfl
          · rcases List.mem_singleton.mp hev with rfl
            exact Or.inl rfl

/-- C7: during `Close` of an open node, a caller-resolver failure other
than `ErrNoCaller` aborts the close: the call returns exactly that
resolver error (accumulated child errors are dropped), the node's own
state is left `Open`, and — when the node's id does not occur in its
children's subtrees — no event of the close concerns this node, so no
handler is notified of its closure and it is never marked; an `ErrNoCaller`
outcome instead lets the close proceed with an absent caller: the node is
marked `Closed` and every handler is notified with caller `none`. -/
theorem c7_resolver_failure (hs : List Handler) (cr : Nat → CallerResult)
    (now : Nat) (id : Nat) (children : List LTree) (e : GoError)
    (he : cr id = CallerResult.errRes e) (hne : e ≠ ErrNoCaller)
    (hfresh : ∀ c ∈ children, id ∉ preorder c) :
    closeTree hs cr now
        (LTree.node id LoggerState.LoggerState_Open children) =
      (LTree.node id LoggerState.LoggerState_Open
        (closeForest hs cr now children).1,
       some e, (closeForest hs cr now children).2.2) ∧
    (∀ ev ∈ (closeTree hs cr now
        (LTree.node id LoggerState.LoggerState_Open children)).2.2,
      eventLoggerId ev ≠ id) ∧
    (∀ (cr2 : Nat → CallerResult) (tid : Nat),
      cr2 tid = CallerResult.errRes ErrNoCaller →
      closeTree hs cr2 now (LTree.node tid LoggerState.LoggerState_Open []) =
        (LTree.node tid LoggerState.LoggerState_Closed [],
         errorsJoin (hs.map fun h => h.onLoggerClosed tid now none),
         (hs.map fun h => Event.closedNotify h.hid tid now none) ++
           [Event.closedMark tid])) := by
  have hcf : callerFatal (cr id) = some e := by
    rw [he]
    simp [callerFatal, hne]
  have h1 : closeTree hs cr now
      (LTree.node id LoggerState.LoggerState_Open children) =
      (LTree.node id LoggerState.LoggerState_Open
        (closeForest hs cr now children).1,
       some e, (closeForest hs cr now children).2.2) := by
    rw [closeTree, if_neg (fun hc => LoggerState.noConfusion hc), hcf]
  refine ⟨h1, ?_, ?_⟩
  · intro ev hev hideq
    rw [h1] at hev
    have hmem := closeForest_events_ids hs cr now children
      (fun c _ => closeTree_events_ids hs cr now c) ev hev
    rw [hideq] at hmem
    rcases mem_preorderForest.mp hmem with ⟨c, hc, hidc⟩
    exact hfresh c hc hidc
  · intro cr2 tid h2
    have hcf2 : callerFatal (cr2 tid) = none := by
      rw [h2]
      simp [callerFatal]
    have hframe : callerFrame (cr2 tid) = none := by
      rw [h2]
      rfl
    rw [closeTree_open_leaf hs cr2 now tid hcf2, hframe]

/-- Witness for C7: closing root 0 (with open child 1) under `crFail0`,
whose resolution at node 0 fails fatally with `errBoom`, returns exactly
`errBoom` and leaves node 0 `Open` while child 1 was closed. -/
theorem c7_resolver_failure_witness :
    crFail0 0 = CallerResult.errRes errBoom ∧
    errBoom ≠ ErrNoCaller ∧
    (∀ c ∈ [LTree.node 1 LoggerState.LoggerState_Open []],
      (0 : Nat) ∉ preorder c) ∧
    closeTree [hFail0] crFail0 7
        (LTree.node 0 LoggerState.LoggerState_Open
          [LTree.node 1 LoggerState.LoggerState_Open []]) =
      (LTree.node 0 LoggerState.LoggerState_Open
        (closeForest [hFail0] crFail0 7
          [LTree.node 1 LoggerState.LoggerState_Open []]).1,
       some errBoom,
       (closeForest [hFail0] crFail0 7
         [LTree.node 1 LoggerState.LoggerState_Open []]).2.2) ∧
    statesList (closeTree [hFail0] crFail0 7
        (LTree.node 0 LoggerState.LoggerState_Open
          [LTree.node 1 LoggerState.LoggerState_Open []])).1 =
      [LoggerState.LoggerState_Open, LoggerState.LoggerState_Closed] := by
  refine ⟨rfl, by decide, by decide, ?_, by rfl⟩
  exact (c7_resolver_failure [hFail0] crFail0 7 0
    [LTree.node 1 LoggerState.LoggerState_Open []] errBoom rfl (by decide)
    (by decide)).1

theorem NewChildLogger_childId (w : World) (i : Nat) (cr : CallerResult)
    (now : Nat) :
    (Logger.NewChildLogger w i cr now).childId = w.nodes.length := by
  unfold Logger.NewChildLogger NewLogger
  cases hcf : callerFatal cr
  · rfl
  · rfl

theorem NewChildLogger_events (w : World) (i : Nat) (cr : CallerResult)
    (now : Nat) (hcr : callerFatal cr = none) :
    (Logger.NewChildLogger w i cr now).events =
      (Logger.Handlers (Logger.NewChildLogger w i cr now).world
        w.nodes.length).map
        (fun h => Event.created h.hid w.nodes.length now (callerFrame cr)) := by
  unfold Logger.NewChildLogger NewLogger
  rw [hcr]

theorem World.get_append_at (w : World) (d : Node) :
    (World.mk (w.nodes ++ [d])).get w.nodes.length = d := by
  unfold World.get
  simp [List.getD_eq_getElem?_getD, List.getElem?_concat_length]

theorem NewChildLogger_get_parentNode (w : World) (i : Nat)
    (cr : CallerResult) (now : Nat) (hi : i < w.nodes.length) :
    ((Logger.NewChildLogger w i cr now).world).get i =
      { w.get i with children := (w.get i).children ++ [w.nodes.length] } := by
  have hW2 : ((World.mk (w.nodes ++ [defaultNode])).modify w.nodes.length
      (fun n => { n with parent := some i })).get i = w.get i := by
    rw [World.get_modify, if_neg (by rintro ⟨h1, h2⟩; omega),
      World.get_append_lt w defaultNode i hi]
  rw [NewChildLogger_world, World.get_modify,
    if_pos ⟨rfl, by simp [World.modify]; omega⟩, hW2]

theorem NewChildLogger_get_child (w : World) (i : Nat) (cr : CallerResult)
    (now : Nat) (hi : i < w.nodes.length) :
    ((Logger.NewChildLogger w i cr now).world).get w.nodes.length =
      { defaultNode with parent := some i } := by
  rw [NewChildLogger_world, World.get_modify,
    if_neg (by rintro ⟨h1, h2⟩; omega), World.get_modify,
    if_pos ⟨rfl, by simp⟩, World.get_append_at]

theorem NewChildLogger_get_other (w : World) (i : Nat) (cr : CallerResult)
    (now : Nat) (j : Nat) (hj : j < w.nodes.length) (hne : j ≠ i) :
    ((Logger.NewChildLogger w i cr now).world).get j = w.get j := by
  rw [NewChildLogger_world, World.get_modify,
    if_neg (by rintro ⟨h1, h2⟩; exact hne h1), World.get_modify,
    if_neg (by rintro ⟨h1, h2⟩; omega),
    World.get_append_lt w defaultNode j hj]

theorem rootLoggerAux_le (w : World)
    (hpar : ∀ k p, ((w.get k).parent = some p) → p < k) :
    ∀ fuel k, rootLoggerAux w fuel k ≤ k := by
  intro fuel
  induction fuel with
  | zero => intro k; exact Nat.le_refl k
  | succ n ih =>
      intro k
      simp only [rootLoggerAux]
      cases hpk : (w.get k).parent with
      | none => exact Nat.le_refl k
      | some p => exact Nat.le_of_lt (Nat.lt_of_le_of_lt (ih p) (hpar k p hpk))

theorem rootLoggerAux_congr_lt (w w' : World) (bound : Nat)
    (hp : ∀ k, k < bound → (w'.get k).parent = (w.get k).parent)
    (hpar : ∀ k p, ((w.get k).parent = some p) → p < k) :
    ∀ fuel k, k < bound → rootLoggerAux w' fuel k = rootLoggerAux w fuel k := by
  intro fuel
  induction fuel with
  | zero => intro k hk; rfl
  | succ n ih =>
      intro k hk
      simp only [rootLoggerAux, hp k hk]
      cases hpk : (w.get k).parent with
      | none => rfl
      | some p => exact ih p (Nat.lt_trans (hpar k p hpk) hk)

theorem rootLoggerAux_stable (w : World)
    (hpar : ∀ k p, ((w.get k).parent = some p) → p < k) :
    ∀ (n k : Nat), k ≤ n → ∀ fuel1 fuel2, k < fuel1 → k < fuel2 →
      rootLoggerAux w fuel1 k = rootLoggerAux w fuel2 k := by
  intro n
  induction n with
  | zero =>
      intro k hk fuel1 fuel2 h1 h2
      cases fuel1 with
      | zero => omega
      | succ f1 =>
          cases fuel2 with
          | zero => omega
          | succ f2 =>
              simp only [rootLoggerAux]
              cases hpk : (w.get k).parent with
              | none => rfl
              | some p =>
                  have := hpar k p hpk
                  omega
  | succ n ih =>
      intro k hk fuel1 fuel2 h1 h2
      cases fuel1 with
      | zero => omega
      | succ f1 =>
          cases fuel2 with
          | zero => omega
          | succ f2 =>
              simp only [rootLoggerAux]
              cases hpk : (w.get k).parent with
              | none => rfl
              | some p =>
                  have hp := hpar k p hpk
                  exact ih p (by omega) f1 f2 (by omega) (by omega)

theorem Handlers_NewChild (w : World) (i : Nat) (cr : CallerResult)
    (now : Nat) (hi : i < w.nodes.length)
    (hpar : ∀ k p, ((w.get k).parent = some p) → p < k) :
    Logger.Handlers (Logger.NewChildLogger w i cr now).world
        w.nodes.length = Logger.Handlers w i := by
  have hchild := NewChildLogger_get_child w i cr now hi
  have hp : ∀ k, k < w.nodes.length →
      (((Logger.NewChildLogger w i cr now).world).get k).parent =
        (w.get k).parent := by
    intro k hk
    rcases eq_or_ne k i with hk2 | hk2
    · rw [hk2, NewChildLogger_get_parentNode w i cr now hi]
    · rw [NewChildLogger_get_other w i cr now k hk hk2]
  have hrle : Logger.RootLogger w i ≤ i := rootLoggerAux_le w hpar (i + 1) i
  have hrlt : Logger.RootLogger w i < w.nodes.length :=
    Nat.lt_of_le_of_lt hrle hi
  have step1 : Logger.RootLogger (Logger.NewChildLogger w i cr now).world
      w.nodes.length =
      rootLoggerAux (Logger.NewChildLogger w i cr now).world
        w.nodes.length i := by
    unfold Logger.RootLogger
    simp only [rootLoggerAux, hchild]
  have step2 : rootLoggerAux (Logger.NewChildLogger w i cr now).world
      w.nodes.length i = rootLoggerAux w w.nodes.length i :=
    rootLoggerAux_congr_lt w _ w.nodes.length hp hpar w.nodes.length i hi
  have step3 : rootLoggerAux w w.nodes.length i =
      rootLoggerAux w (i + 1) i :=
    rootLoggerAux_stable w hpar i i (Nat.le_refl i) w.nodes.length (i + 1)
      hi (Nat.lt_succ_self i)
  have hroot : Logger.RootLogger (Logger.NewChildLogger w i cr now).world
      w.nodes.length = Logger.RootLogger w i :=
    step1.trans (step2.trans step3)
  unfold Logger.Handlers
  rw [hroot]
  rcases eq_or_ne (Logger.RootLogger w i) i with hri | hri
  · rw [hri, NewChildLogger_get_parentNode w i cr now hi]
  · rw [NewChildLogger_get_other w i cr now _ hrlt hri]

/-- C8: `NewChildLogger` allocates exactly one fresh node (its id is the
heap size) with parent link set to the calling node, open state, no
children and no handlers; it appends exactly that entry to the calling
node's child list, changes nothing else of the calling node, and mutates
no other node's fields; a root constructed by `NewLogger` emits no
creation event, while child creation (under a non-fatal caller resolution)
emits exactly one `OnLoggerCreated` notification per handler of the tree's
root, in registration order. -/
theorem c8_child_creation (w : World) (i : Nat) (cr : CallerResult)
    (now : Nat) (hi : i < w.nodes.length)
    (hpar : ∀ k p, ((w.get k).parent = some p) → p < k)
    (hcr : callerFatal cr = none) :
    (Logger.NewChildLogger w i cr now).childId = w.nodes.length ∧
    ((Logger.NewChildLogger w i cr now).world).get i =
      { w.get i with children := (w.get i).children ++ [w.nodes.length] } ∧
    ((Logger.NewChildLogger w i cr now).world).get w.nodes.length =
      { defaultNode with parent := some i } ∧
    (∀ j, j < w.nodes.length → j ≠ i →
      ((Logger.NewChildLogger w i cr now).world).get j = w.get j) ∧
    (NewLogger w).2.2 = [] ∧
    (Logger.NewChildLogger w i cr now).events =
      (Logger.Handlers w i).map (fun h =>
        Event.created h.hid w.nodes.length now (callerFrame cr)) := by
  refine ⟨NewChildLogger_childId w i cr now,
    NewChildLogger_get_parentNode w i cr now hi,
    NewChildLogger_get_child w i cr now hi,
    fun j hj hne => NewChildLogger_get_other w i cr now j hj hne, rfl, ?_⟩
  rw [NewChildLogger_events w i cr now hcr,
    Handlers_NewChild w i cr now hi hpar]

theorem wChain_hpar : ∀ k p, ((wChain.get k).parent = some p) → p < k := by
  intro k p h
  match k with
  | 0 =>
      have h2 : (wChain.get 0).parent = none := by rfl
      rw [h2] at h
      cases h
  | 1 =>
      have h2 : (wChain.get 1).parent = some 0 := by rfl
      rw [h2] at h
      injection h with h3
      omega
  | 2 =>
      have h2 : (wChain.get 2).parent = some 1 := by rfl
      rw [h2] at h
      injection h with h3
      omega
  | n + 3 =>
      have h2 : (wChain.get (n + 3)).parent = none := by
        unfold World.get wChain
        rw [List.getD_eq_getElem?_getD, List.getElem?_eq_none
          (by simp only [List.length_cons, List.length_nil]; omega)]
        rfl
      rw [h2] at h
      cases h

/-- Witness for C8: creating a child of the root of `wChain`. -/
theorem c8_child_creation_witness :
    0 < wChain.nodes.length ∧
    (∀ k p, ((wChain.get k).parent = some p) → p < k) ∧
    callerFatal noCallerRes = none ∧
    (Logger.NewChildLogger wChain 0 noCallerRes 9).childId = 3 ∧
    (Logger.NewChildLogger wChain 0 noCallerRes 9).events =
      (Logger.Handlers wChain 0).map
        (fun h => Event.created h.hid 3 9 none) := by
  have hc := c8_child_creation wChain 0 noCallerRes 9 (by decide) wChain_hpar
    rfl
  exact ⟨by decide, wChain_hpar, rfl, hc.1, hc.2.2.2.2.2⟩

/-- C6: the handler list and the `panicOnError` flag resolve to the root's
single copy from every node of the tree: two nodes with the same root read
the same handler list and flag; `AddHandler` called on any node appends to
the root's entry and mutates no other node; after registering through any
node, every same-tree node reads the extended list, and a record logged
from any same-tree node additionally invokes the new handler, after the
previously registered ones; `SetPanicOnError` through any node is read
back through every same-tree node. -/
theorem c6_root_shared (w : World) (x y : Nat) (h : Handler)
    (cr : CallerResult) (now : Nat) (level : Level) (message : String)
    (args : List GoValue)
    (hroot : Logger.RootLogger w y = Logger.RootLogger w x)
    (hrlt : Logger.RootLogger w x < w.nodes.length)
    (hcr : callerFatal cr = none) :
    Logger.Handlers w y = Logger.Handlers w x ∧
    Logger.PanicOnError w y = Logger.PanicOnError w x ∧
    (Logger.AddHandler w x h).get (Logger.RootLogger w x) =
      { w.get (Logger.RootLogger w x) with
        handlers := (w.get (Logger.RootLogger w x)).handlers ++ [h] } ∧
    (∀ j, j ≠ Logger.RootLogger w x →
      (Logger.AddHandler w x h).get j = w.get j) ∧
    Logger.Handlers (Logger.AddHandler w x h) y =
      Logger.Handlers w y ++ [h] ∧
    (Logger.Log (Logger.AddHandler w x h) y cr now level message args).2 =
      (Logger.Log w y cr now level message args).2 ++
        [Event.recordEv h.hid y (logRecord cr now level message args)] ∧
    (∀ b, Logger.PanicOnError (Logger.SetPanicOnError w x b) y = b) := by
  have h5 : Logger.Handlers (Logger.AddHandler w x h) y =
      Logger.Handlers w y ++ [h] := by
    unfold Logger.Handlers Logger.AddHandler
    rw [RootLogger_modify w (Logger.RootLogger w x)
      (fun n => { n with handlers := n.handlers ++ [h] }) (fun n => rfl) y,
      hroot, World.get_modify, if_pos ⟨rfl, hrlt⟩]
  refine ⟨?_, ?_, ?_, ?_, h5, ?_, ?_⟩
  · unfold Logger.Handlers
    rw [hroot]
  · unfold Logger.PanicOnError
    rw [hroot]
  · unfold Logger.AddHandler
    rw [World.get_modify, if_pos ⟨rfl, hrlt⟩]
  · intro j hj
    unfold Logger.AddHandler
    rw [World.get_modify, if_neg (by rintro ⟨h1, h2⟩; exact hj h1)]
  · rw [Log_of_caller_ok _ y cr now level message args hcr,
      Log_of_caller_ok w y cr now level message args hcr]
    simp only [h5, List.map_append, List.map_cons, List.map_nil]
  · intro b
    unfold Logger.PanicOnError Logger.SetPanicOnError
    rw [RootLogger_modify w (Logger.RootLogger w x)
      (fun n => { n with panicOnError := b }) (fun n => rfl) y,
      hroot, World.get_modify, if_pos ⟨rfl, hrlt⟩]

/-- Witness for C6: registering a handler on grandchild 2 of `wChain`
extends the list read from sibling-branch node 1, and the flag set through
node 2 is read through node 1. -/
theorem c6_root_shared_witness :
    Logger.RootLogger wChain 1 = Logger.RootLogger wChain 2 ∧
    Logger.RootLogger wChain 2 < wChain.nodes.length ∧
    callerFatal noCallerRes = none ∧
    Logger.Handlers (Logger.AddHandler wChain 2 hOk1) 1 =
      Logger.Handlers wChain 1 ++ [hOk1] ∧
    (∀ b, Logger.PanicOnError (Logger.SetPanicOnError wChain 2 b) 1 = b) := by
  have hc := c6_root_shared wChain 2 1 hOk1 noCallerRes 0 LevelInfo "m" []
    (by decide) (by decide) rfl
  exact ⟨by decide, by decide, rfl, hc.2.2.2.2.1, hc.2.2.2.2.2.2⟩
